import Mathlib

/-!
Verification of the vehicle-physics micro-benchmark
(`src/concepts_vs_polymorphism_bm.cpp`).

The program compares two dispatch strategies (C++20 concepts vs virtual
dispatch) over the same numeric workload.  We embed the program state and
its operations shallowly:

* C++ `double` values are modelled as exact rationals (`ℚ`): the claims
  under study are about the algebraic structure of the updates, not about
  IEEE-754 rounding.
* The `<cmath>` library functions `sin`, `cos`, `tan`, `sqrt` are external
  to the repository; they are modelled as an abstract environment
  `MathFns` of functions `ℚ → ℚ`, so every theorem quantifies over the
  possible behaviours of the math library.
* `std::vector<double>` becomes `Array ℚ`; the in-place write
  `calculations[i] = v` becomes `Array.setD i v` (a write that is a no-op
  when out of bounds, letting us prove separately that every write of the
  kernel is in bounds).
* Each C++ member function becomes a state-passing Lean function on a
  structure holding the object fields.
-/

namespace constants

def VECTOR_SIZE : Nat := 10000

def INNER_LOOP_COUNT : Nat := 10

def BENCHMARK_ITERATIONS : Nat := 10000

def ACCELERATION_VALUE : ℚ := 50

def MIN_TIME : ℚ := 1/10

def POLY_ACCELERATION : ℚ := 4/5

def POLY_FRICTION : ℚ := 9/10

def ELECTRIC_ACCELERATION : ℚ := 19/20

def ELECTRIC_FRICTION : ℚ := 17/20

def GAS_ACCELERATION : ℚ := 3/4

def GAS_FRICTION : ℚ := 19/20

end constants

/-- Abstract model of the `<cmath>` functions used by the kernel.  These are
library functions external to the repository, so they are parameters of the
embedding rather than definitions translated from source. -/
structure MathFns where
  sin : ℚ → ℚ
  cos : ℚ → ℚ
  tan : ℚ → ℚ
  sqrt : ℚ → ℚ

namespace impl

/-- The value stored into `calculations[i]` by one kernel step:
`std::sin(speed * i) * std::cos(i * 0.5) * std::tan(speed)`. -/
def calcTerm (F : MathFns) (speed : ℚ) (i : Nat) : ℚ :=
  F.sin (speed * (i : ℚ)) * F.cos ((i : ℚ) * (1/2)) * F.tan speed

/-- The amount added to `work` by one kernel step:
`calculations[i] * std::sqrt(speed + i)`. -/
def workTerm (F : MathFns) (speed : ℚ) (i : Nat) : ℚ :=
  calcTerm F speed i * F.sqrt (speed + (i : ℚ))

/-- One loop body of `impl::doAcceleration`, acting on the pair
`(work, calculations)`. -/
def doAccelerationStep (F : MathFns) (speed : ℚ) (acc : ℚ × Array ℚ) (i : Nat) :
    ℚ × Array ℚ :=
  (acc.1 + calcTerm F speed i * F.sqrt (speed + (i : ℚ)),
   acc.2.setD i (calcTerm F speed i))

/-- `impl::doAcceleration`: for each `i` in `0 .. VECTOR_SIZE - 1`, sets
`calculations[i] = sin(speed*i) * cos(i*0.5) * tan(speed)` and accumulates
`work += calculations[i] * sqrt(speed + i)`.  Returns the updated
`(work, calculations)` (in C++ both are passed by reference). -/
def doAcceleration (F : MathFns) (speed : ℚ) (work : ℚ) (calculations : Array ℚ) :
    ℚ × Array ℚ :=
  (List.range constants.VECTOR_SIZE).foldl (doAccelerationStep F speed)
    (work, calculations)

theorem doAccelerationStep_fst (F : MathFns) (speed : ℚ) (acc : ℚ × Array ℚ)
    (i : Nat) :
    (doAccelerationStep F speed acc i).1 = acc.1 + workTerm F speed i := rfl

/-- The `work` component of the kernel fold over an arbitrary index list:
it is the initial `work` plus the sum of the per-index contributions, and it
does not depend on the buffer contents. -/
theorem foldl_doAccelerationStep_fst (F : MathFns) (speed : ℚ) (l : List Nat) :
    ∀ (work : ℚ) (calculations : Array ℚ),
      (l.foldl (doAccelerationStep F speed) (work, calculations)).1
        = work + (l.map (workTerm F speed)).sum := by
  induction l with
  | nil => intro work calculations; simp
  | cons i t ih =>
      intro work calculations
      simp only [List.foldl_cons, List.map_cons, List.sum_cons, doAccelerationStep]
      rw [ih]
      rw [workTerm]
      ring

/-- The buffer size is preserved by the kernel fold. -/
theorem foldl_doAccelerationStep_size (F : MathFns) (speed : ℚ) (l : List Nat) :
    ∀ (work : ℚ) (calculations : Array ℚ),
      (l.foldl (doAccelerationStep F speed) (work, calculations)).2.size
        = calculations.size := by
  induction l with
  | nil => intro work calculations; rfl
  | cons i t ih =>
      intro work calculations
      simp only [List.foldl_cons, doAccelerationStep]
      rw [ih]
      simp

theorem doAcceleration_fst (F : MathFns) (speed work : ℚ)
    (calculations : Array ℚ) :
    (doAcceleration F speed work calculations).1
      = work + ∑ i ∈ Finset.range constants.VECTOR_SIZE, workTerm F speed i := by
  rw [doAcceleration, foldl_doAccelerationStep_fst]
  congr 1

theorem doAcceleration_size (F : MathFns) (speed work : ℚ)
    (calculations : Array ℚ) :
    (doAcceleration F speed work calculations).2.size = calculations.size :=
  foldl_doAccelerationStep_size F speed _ work calculations

/-- A buffer write at one index leaves every other index unchanged. -/
theorem getD_setD_of_ne (a : Array ℚ) (i j : Nat) (v : ℚ) (hne : i ≠ j) :
    (a.setD i v).getD j 0 = a.getD j 0 := by
  simp only [Array.getD_eq_get?]
  unfold Array.setD
  split
  · rw [Array.getElem?_set_ne _ _ _ hne]
  · rfl

/-- Entry `j` of the buffer after folding the kernel step over `0 .. n-1`:
if `j < n` it holds the freshly computed term, otherwise the old value. -/
theorem foldl_doAccelerationStep_getD (F : MathFns) (speed : ℚ) (n : Nat) :
    ∀ (work : ℚ) (calculations : Array ℚ) (j : Nat), j < calculations.size →
      (((List.range n).foldl (doAccelerationStep F speed) (work, calculations)).2).getD j 0
        = if j < n then calcTerm F speed j else calculations.getD j 0 := by
  induction n with
  | zero => intro work calculations j hj; simp
  | succ n ih =>
      intro work calculations j hj
      rw [List.range_succ, List.foldl_append]
      simp only [List.foldl_cons, List.foldl_nil]
      by_cases hjn : j = n
      · subst hjn
        have hsize :
            j < (((List.range j).foldl (doAccelerationStep F speed)
              (work, calculations)).2).size := by
          rw [foldl_doAccelerationStep_size]; exact hj
        simp only [doAccelerationStep]
        rw [Array.getD_eq_get?, Array.getElem?_setD_eq _ hsize]
        simp
      · simp only [doAccelerationStep]
        rw [getD_setD_of_ne _ _ _ _ (fun h => hjn h.symm)]
        rw [ih work calculations j hj]
        have heq : (j < n) ↔ (j < n + 1) := by omega
        by_cases hlt : j < n
        · simp [hlt, heq.mp hlt]
        · have hlt2 : ¬ j < n + 1 := by omega
          simp [hlt, hlt2]

/-- After the kernel runs on a buffer of length `VECTOR_SIZE`, every index
`j < VECTOR_SIZE` holds the freshly computed term: every index in the range
is genuinely written, in bounds. -/
theorem doAcceleration_getD (F : MathFns) (speed work : ℚ)
    (calculations : Array ℚ) (hsize : calculations.size = constants.VECTOR_SIZE)
    (j : Nat) (hj : j < constants.VECTOR_SIZE) :
    ((doAcceleration F speed work calculations).2).getD j 0 = calcTerm F speed j := by
  rw [doAcceleration, foldl_doAccelerationStep_getD F speed _ work calculations j
    (by rw [hsize]; exact hj)]
  simp [hj]

end impl

/-!  ## Concept-based (generic-dispatch) vehicles

`ElectricSportsCar` and `GasSportsCar` are two independent classes with
textually identical bodies; we embed each one separately, mirroring the
duplication in the source. -/

structure ElectricSportsCar where
  speed : ℚ
  work : ℚ
  calculations : Array ℚ
  brand : String
  model : String

namespace ElectricSportsCar

/-- The constructor `ElectricSportsCar(b, m)`: `speed = 0`, `work = 0`,
`calculations` is a zero-filled vector of length `VECTOR_SIZE`. -/
def construct (b m : String) : ElectricSportsCar :=
  ⟨0, 0, Array.mkArray constants.VECTOR_SIZE 0, b, m⟩

/-- `accelerate(s)`: `speed += s` then `impl::doAcceleration(speed, work,
calculations)`. -/
def accelerate (F : MathFns) (c : ElectricSportsCar) (s : ℚ) : ElectricSportsCar :=
  { c with
    speed := c.speed + s
    work := (impl.doAcceleration F (c.speed + s) c.work c.calculations).1
    calculations := (impl.doAcceleration F (c.speed + s) c.work c.calculations).2 }

/-- `brake()`: `speed = 0`. -/
def brake (c : ElectricSportsCar) : ElectricSportsCar :=
  { c with speed := 0 }

def getWork (c : ElectricSportsCar) : ℚ := c.work

def getBrand (c : ElectricSportsCar) : String := c.brand

def getModel (c : ElectricSportsCar) : String := c.model

end ElectricSportsCar

structure GasSportsCar where
  speed : ℚ
  work : ℚ
  calculations : Array ℚ
  brand : String
  model : String

namespace GasSportsCar

/-- The constructor `GasSportsCar(b, m)`. -/
def construct (b m : String) : GasSportsCar :=
  ⟨0, 0, Array.mkArray constants.VECTOR_SIZE 0, b, m⟩

/-- `accelerate(s)`: `speed += s` then `impl::doAcceleration(speed, work,
calculations)`. -/
def accelerate (F : MathFns) (c : GasSportsCar) (s : ℚ) : GasSportsCar :=
  { c with
    speed := c.speed + s
    work := (impl.doAcceleration F (c.speed + s) c.work c.calculations).1
    calculations := (impl.doAcceleration F (c.speed + s) c.work c.calculations).2 }

/-- `brake()`: `speed = 0`. -/
def brake (c : GasSportsCar) : GasSportsCar :=
  { c with speed := 0 }

def getWork (c : GasSportsCar) : ℚ := c.work

def getBrand (c : GasSportsCar) : String := c.brand

def getModel (c : GasSportsCar) : String := c.model

end GasSportsCar

/-!  ## Virtual-dispatch vehicles

`PolyVehicle` holds the shared fields and the shared `accelerate` /
`getCurrentSpeed`; the two leaves differ only in `getFriction` and
`brake`.  We embed the shared part as functions parameterised by the
leaf's friction coefficient, exactly as the virtual call
`getFriction()` inside `PolyVehicle::accelerate` resolves to the leaf
override. -/

structure PolyVehicleState where
  speed : ℚ
  work : ℚ
  calculations : Array ℚ

namespace PolyVehicle

/-- The `PolyVehicle()` constructor: zero speed and work, zero-filled
buffer of length `VECTOR_SIZE`. -/
def construct : PolyVehicleState :=
  ⟨0, 0, Array.mkArray constants.VECTOR_SIZE 0⟩

/-- `PolyVehicle::accelerate(s)`: `speed += s * getFriction()` then
`impl::doAcceleration(speed, work, calculations)`.  `friction` is the
value returned by the leaf's `getFriction()` override. -/
def accelerate (F : MathFns) (friction : ℚ) (st : PolyVehicleState) (s : ℚ) :
    PolyVehicleState :=
  { st with
    speed := st.speed + s * friction
    work := (impl.doAcceleration F (st.speed + s * friction) st.work st.calculations).1
    calculations :=
      (impl.doAcceleration F (st.speed + s * friction) st.work st.calculations).2 }

/-- `PolyVehicle::getCurrentSpeed()`. -/
def getCurrentSpeed (st : PolyVehicleState) : ℚ := st.speed

/-- `PolyVehicle::getWork()`. -/
def getWork (st : PolyVehicleState) : ℚ := st.work

end PolyVehicle

namespace PolyElectricCar

/-- `PolyElectricCar::getFriction()`. -/
def getFriction : ℚ := constants.ELECTRIC_FRICTION

/-- `PolyElectricCar`'s inherited `accelerate`, with the virtual
`getFriction()` resolved to `ELECTRIC_FRICTION`. -/
def accelerate (F : MathFns) (st : PolyVehicleState) (s : ℚ) : PolyVehicleState :=
  PolyVehicle.accelerate F getFriction st s

/-- `PolyElectricCar::brake()`: regenerative braking,
`work += speed * ELECTRIC_FRICTION` then `speed = 0`. -/
def brake (st : PolyVehicleState) : PolyVehicleState :=
  { st with
    work := st.work + st.speed * constants.ELECTRIC_FRICTION
    speed := 0 }

end PolyElectricCar

namespace PolyGasCar

/-- `PolyGasCar::getFriction()`. -/
def getFriction : ℚ := constants.GAS_FRICTION

/-- `PolyGasCar`'s inherited `accelerate`, with the virtual
`getFriction()` resolved to `GAS_FRICTION`. -/
def accelerate (F : MathFns) (st : PolyVehicleState) (s : ℚ) : PolyVehicleState :=
  PolyVehicle.accelerate F getFriction st s

/-- `PolyGasCar::brake()`: traditional brakes, `speed = 0`, no energy
recovery. -/
def brake (st : PolyVehicleState) : PolyVehicleState :=
  { st with speed := 0 }

end PolyGasCar

/-!  ## Benchmark driver

`BM_ConceptBased` and `BM_Polymorphic` each run an inner loop of
`INNER_LOOP_COUNT` repetitions per measured iteration; each repetition
accelerates a vehicle by `ACCELERATION_VALUE`, adds its `getWork()` to a
running total and brakes it, once for the Electric and once for the Gas
variant.  `main` registers both benchmarks with a fixed configuration. -/

structure ConceptBenchState where
  tesla : ElectricSportsCar
  porsche : GasSportsCar
  total_work : ℚ

/-- One repetition of the inner loop of `BM_ConceptBased`. -/
def conceptRep (F : MathFns) (st : ConceptBenchState) : ConceptBenchState :=
  { tesla := (st.tesla.accelerate F constants.ACCELERATION_VALUE).brake
    porsche := (st.porsche.accelerate F constants.ACCELERATION_VALUE).brake
    total_work := st.total_work
      + (st.tesla.accelerate F constants.ACCELERATION_VALUE).getWork
      + (st.porsche.accelerate F constants.ACCELERATION_VALUE).getWork }

/-- One measured iteration of `BM_ConceptBased`: the inner
`for(int i = 0; i < INNER_LOOP_COUNT; ++i)` loop. -/
def conceptIteration (F : MathFns) (st : ConceptBenchState) : ConceptBenchState :=
  (List.range constants.INNER_LOOP_COUNT).foldl (fun acc _ => conceptRep F acc) st

/-- The vehicles of `BM_ConceptBased` as constructed at the top of the
benchmark body, with an initial running total of `0`. -/
def conceptStart : ConceptBenchState :=
  { tesla := ElectricSportsCar.construct "Tesla" "Model S"
    porsche := GasSportsCar.construct "Porsche" "911"
    total_work := 0 }

structure PolyBenchState where
  tesla : PolyVehicleState
  porsche : PolyVehicleState
  total_work : ℚ

/-- One repetition of the inner loop of `BM_Polymorphic`; the virtual
calls resolve to the `PolyElectricCar` and `PolyGasCar` overrides. -/
def polyRep (F : MathFns) (st : PolyBenchState) : PolyBenchState :=
  { tesla := PolyElectricCar.brake
      (PolyElectricCar.accelerate F st.tesla constants.ACCELERATION_VALUE)
    porsche := PolyGasCar.brake
      (PolyGasCar.accelerate F st.porsche constants.ACCELERATION_VALUE)
    total_work := st.total_work
      + PolyVehicle.getWork (PolyElectricCar.accelerate F st.tesla constants.ACCELERATION_VALUE)
      + PolyVehicle.getWork (PolyGasCar.accelerate F st.porsche constants.ACCELERATION_VALUE) }

/-- One measured iteration of `BM_Polymorphic`. -/
def polyIteration (F : MathFns) (st : PolyBenchState) : PolyBenchState :=
  (List.range constants.INNER_LOOP_COUNT).foldl (fun acc _ => polyRep F acc) st

/-- Display unit of a registered benchmark (`benchmark::kMillisecond` etc.). -/
inductive TimeUnit where
  | nanosecond
  | microsecond
  | millisecond
  | second
deriving DecidableEq

/-- The registration-time configuration applied to a benchmark in `main`:
`Unit`, `UseRealTime`, `MinTime`, `Iterations`. -/
structure BenchConfig where
  timeUnit : TimeUnit
  useRealTime : Bool
  minTime : ℚ
  iterations : Nat
deriving DecidableEq

/-- The two `RegisterBenchmark` calls in `main`, in order, with the
configuration chained onto each. -/
def mainBenchmarks : List (String × BenchConfig) :=
  [("ConceptBased",
    { timeUnit := TimeUnit.millisecond
      useRealTime := true
      minTime := constants.MIN_TIME
      iterations := constants.BENCHMARK_ITERATIONS }),
   ("Polymorphic",
    { timeUnit := TimeUnit.millisecond
      useRealTime := true
      minTime := constants.MIN_TIME
      iterations := constants.BENCHMARK_ITERATIONS })]

/-!  ## The capability-set (concept) check

The C++20 concepts `Acceleratable` and `SportsCar` are compile-time
predicates on types; a shallow embedding cannot quantify over C++ types,
so a type is modelled by the set of required member signatures it
exposes, and each concept by the Boolean predicate the `requires` clause
evaluates on that set. -/

structure MethodSet where
  accelerateDoubleVoid : Bool
  brakeVoid : Bool
  getWorkDouble : Bool
  getBrandString : Bool
  getModelString : Bool

/-- The `Acceleratable` concept: requires `accelerate(double) -> void`,
`brake() -> void` and `getWork() -> double`. -/
def Acceleratable (t : MethodSet) : Bool :=
  t.accelerateDoubleVoid && t.brakeVoid && t.getWorkDouble

/-- The `SportsCar` concept: `Acceleratable` plus `getBrand() -> string`
and `getModel() -> string`. -/
def SportsCar (t : MethodSet) : Bool :=
  Acceleratable t && t.getBrandString && t.getModelString

/-- The member signatures `ElectricSportsCar` exposes. -/
def ElectricSportsCarMethods : MethodSet :=
  ⟨true, true, true, true, true⟩

/-- The member signatures `GasSportsCar` exposes. -/
def GasSportsCarMethods : MethodSet :=
  ⟨true, true, true, true, true⟩

/-!  ## Call sequences

A common alphabet of operations for comparing the two generic-dispatch
variants run against the same call sequence. -/

inductive CarOp where
  | accel (s : ℚ)
  | brake

def ElectricSportsCar.runOps (F : MathFns) : ElectricSportsCar → List CarOp → ElectricSportsCar
  | c, [] => c
  | c, CarOp.accel s :: rest => runOps F (ElectricSportsCar.accelerate F c s) rest
  | c, CarOp.brake :: rest => runOps F (ElectricSportsCar.brake c) rest

def GasSportsCar.runOps (F : MathFns) : GasSportsCar → List CarOp → GasSportsCar
  | c, [] => c
  | c, CarOp.accel s :: rest => runOps F (GasSportsCar.accelerate F c s) rest
  | c, CarOp.brake :: rest => runOps F (GasSportsCar.brake c) rest

/-- `n` successive `accelerate(s)` calls. -/
def ElectricSportsCar.accelerateN (F : MathFns) (s : ℚ) : Nat → ElectricSportsCar → ElectricSportsCar
  | 0, c => c
  | n + 1, c => ElectricSportsCar.accelerateN F s n (ElectricSportsCar.accelerate F c s)

/-- `n` successive `accelerate(s)` calls. -/
def GasSportsCar.accelerateN (F : MathFns) (s : ℚ) : Nat → GasSportsCar → GasSportsCar
  | 0, c => c
  | n + 1, c => GasSportsCar.accelerateN F s n (GasSportsCar.accelerate F c s)

/-- A concrete math-function environment in which every library function
returns `1`; used to instantiate universally quantified results. -/
def unitFns : MathFns :=
  ⟨fun _ => 1, fun _ => 1, fun _ => 1, fun _ => 1⟩

/-- A concrete math-function environment in which `sin` returns `-1` and
the other functions return `1`, exhibiting negative kernel contributions. -/
def negSinFns : MathFns :=
  ⟨fun _ => -1, fun _ => 1, fun _ => 1, fun _ => 1⟩

/-!  ## Helper lemmas -/

theorem elec_accelerate_speed (F : MathFns) (c : ElectricSportsCar) (s : ℚ) :
    (ElectricSportsCar.accelerate F c s).speed = c.speed + s := rfl

theorem elec_accelerate_work (F : MathFns) (c : ElectricSportsCar) (s : ℚ) :
    (ElectricSportsCar.accelerate F c s).work
      = c.work + ∑ i ∈ Finset.range constants.VECTOR_SIZE, impl.workTerm F (c.speed + s) i := by
  simp only [ElectricSportsCar.accelerate]
  exact impl.doAcceleration_fst F (c.speed + s) c.work c.calculations

theorem gas_accelerate_speed (F : MathFns) (c : GasSportsCar) (s : ℚ) :
    (GasSportsCar.accelerate F c s).speed = c.speed + s := rfl

theorem gas_accelerate_work (F : MathFns) (c : GasSportsCar) (s : ℚ) :
    (GasSportsCar.accelerate F c s).work
      = c.work + ∑ i ∈ Finset.range constants.VECTOR_SIZE, impl.workTerm F (c.speed + s) i := by
  simp only [GasSportsCar.accelerate]
  exact impl.doAcceleration_fst F (c.speed + s) c.work c.calculations

theorem poly_accelerate_speed (F : MathFns) (fr : ℚ) (st : PolyVehicleState) (s : ℚ) :
    (PolyVehicle.accelerate F fr st s).speed = st.speed + s * fr := rfl

theorem poly_accelerate_work (F : MathFns) (fr : ℚ) (st : PolyVehicleState) (s : ℚ) :
    (PolyVehicle.accelerate F fr st s).work
      = st.work + ∑ i ∈ Finset.range constants.VECTOR_SIZE, impl.workTerm F (st.speed + s * fr) i := by
  simp only [PolyVehicle.accelerate]
  exact impl.doAcceleration_fst F (st.speed + s * fr) st.work st.calculations

/-- A `foldl` that ignores the list elements is an iterate. -/
theorem foldl_const_apply {α : Type} (f : α → α) :
    ∀ (n : Nat) (a : α), (List.range n).foldl (fun acc _ => f acc) a = f^[n] a := by
  intro n
  induction n with
  | zero => intro a; rfl
  | succ n ih =>
      intro a
      rw [List.range_succ, List.foldl_append]
      simp only [List.foldl_cons, List.foldl_nil]
      rw [ih, Function.iterate_succ_apply']

/-- Running the same call sequence on the two generic-dispatch variants
from states that agree on the numeric fields keeps the numeric fields
equal. -/
theorem runOps_numeric_equiv (F : MathFns) :
    ∀ (ops : List CarOp) (c : ElectricSportsCar) (g : GasSportsCar),
      c.speed = g.speed → c.work = g.work → c.calculations = g.calculations →
      (ElectricSportsCar.runOps F c ops).speed = (GasSportsCar.runOps F g ops).speed
      ∧ (ElectricSportsCar.runOps F c ops).work = (GasSportsCar.runOps F g ops).work
      ∧ (ElectricSportsCar.runOps F c ops).calculations
          = (GasSportsCar.runOps F g ops).calculations := by
  intro ops
  induction ops with
  | nil =>
      intro c g h1 h2 h3
      exact ⟨h1, h2, h3⟩
  | cons op rest ih =>
      intro c g h1 h2 h3
      cases op with
      | accel s =>
          simp only [ElectricSportsCar.runOps, GasSportsCar.runOps]
          exact ih _ _
            (by simp [ElectricSportsCar.accelerate, GasSportsCar.accelerate, h1, h2, h3])
            (by simp [ElectricSportsCar.accelerate, GasSportsCar.accelerate, h1, h2, h3])
            (by simp [ElectricSportsCar.accelerate, GasSportsCar.accelerate, h1, h2, h3])
      | brake =>
          simp only [ElectricSportsCar.runOps, GasSportsCar.runOps]
          exact ih _ _
            (by simp [ElectricSportsCar.brake, GasSportsCar.brake, h1, h2, h3])
            (by simp [ElectricSportsCar.brake, GasSportsCar.brake, h1, h2, h3])
            (by simp [ElectricSportsCar.brake, GasSportsCar.brake, h1, h2, h3])

/-- Repeated `accelerate(s)` on `ElectricSportsCar` depends only on the
numeric fields of the start state (not on `brand`/`model`). -/
theorem elec_accelerateN_numeric (F : MathFns) (s : ℚ) :
    ∀ (n : Nat) (c d : ElectricSportsCar),
      c.speed = d.speed → c.work = d.work → c.calculations = d.calculations →
      (ElectricSportsCar.accelerateN F s n c).speed
          = (ElectricSportsCar.accelerateN F s n d).speed
      ∧ (ElectricSportsCar.accelerateN F s n c).work
          = (ElectricSportsCar.accelerateN F s n d).work
      ∧ (ElectricSportsCar.accelerateN F s n c).calculations
          = (ElectricSportsCar.accelerateN F s n d).calculations := by
  intro n
  induction n with
  | zero =>
      intro c d h1 h2 h3
      exact ⟨h1, h2, h3⟩
  | succ n ih =>
      intro c d h1 h2 h3
      simp only [ElectricSportsCar.accelerateN]
      exact ih _ _
        (by simp [ElectricSportsCar.accelerate, h1, h2, h3])
        (by simp [ElectricSportsCar.accelerate, h1, h2, h3])
        (by simp [ElectricSportsCar.accelerate, h1, h2, h3])

/-- Repeated `accelerate(s)` on `GasSportsCar` depends only on the numeric
fields of the start state (not on `brand`/`model`). -/
theorem gas_accelerateN_numeric (F : MathFns) (s : ℚ) :
    ∀ (n : Nat) (c d : GasSportsCar),
      c.speed = d.speed → c.work = d.work → c.calculations = d.calculations →
      (GasSportsCar.accelerateN F s n c).speed
          = (GasSportsCar.accelerateN F s n d).speed
      ∧ (GasSportsCar.accelerateN F s n c).work
          = (GasSportsCar.accelerateN F s n d).work
      ∧ (GasSportsCar.accelerateN F s n c).calculations
          = (GasSportsCar.accelerateN F s n d).calculations := by
  intro n
  induction n with
  | zero =>
      intro c d h1 h2 h3
      exact ⟨h1, h2, h3⟩
  | succ n ih =>
      intro c d h1 h2 h3
      simp only [GasSportsCar.accelerateN]
      exact ih _ _
        (by simp [GasSportsCar.accelerate, h1, h2, h3])
        (by simp [GasSportsCar.accelerate, h1, h2, h3])
        (by simp [GasSportsCar.accelerate, h1, h2, h3])

theorem elec_getWork_eq (c : ElectricSportsCar) :
    ElectricSportsCar.getWork c = c.work := rfl

theorem gas_getWork_eq (c : GasSportsCar) :
    GasSportsCar.getWork c = c.work := rfl

theorem elec_construct_speed (b m : String) :
    (ElectricSportsCar.construct b m).speed = 0 := rfl

theorem elec_construct_work (b m : String) :
    (ElectricSportsCar.construct b m).work = 0 := rfl

theorem gas_construct_speed (b m : String) :
    (GasSportsCar.construct b m).speed = 0 := rfl

theorem gas_construct_work (b m : String) :
    (GasSportsCar.construct b m).work = 0 := rfl

/-!  ## Claims -/

/-- C1: for every generic-dispatch vehicle, `accelerate(s)` adds `s` to the
internal speed and then runs the workload kernel, adding
`sin(speed*i) * cos(i*0.5) * tan(speed) * sqrt(speed + i)` to `work` for
every index `i < 10000`; consequently a freshly constructed Electric
generic-dispatch vehicle after a single `accelerate(50.0)` has `getWork()`
equal to the closed-form sum of
`sin(50*i) * cos(i*0.5) * tan(50) * sqrt(50+i)` over `i = 0 .. 9999`. -/
theorem C1_generic_accelerate_closed_form (F : MathFns) (b m : String)
    (c : ElectricSportsCar) (g : GasSportsCar) (s : ℚ) :
    ((ElectricSportsCar.accelerate F c s).speed = c.speed + s
      ∧ (ElectricSportsCar.accelerate F c s).work
          = c.work + ∑ i ∈ Finset.range constants.VECTOR_SIZE,
              impl.workTerm F (c.speed + s) i)
    ∧ ((GasSportsCar.accelerate F g s).speed = g.speed + s
      ∧ (GasSportsCar.accelerate F g s).work
          = g.work + ∑ i ∈ Finset.range constants.VECTOR_SIZE,
              impl.workTerm F (g.speed + s) i)
    ∧ ElectricSportsCar.getWork
        (ElectricSportsCar.accelerate F (ElectricSportsCar.construct b m)
          constants.ACCELERATION_VALUE)
        = ∑ i ∈ Finset.range 10000,
            F.sin (50 * (i : ℚ)) * F.cos ((i : ℚ) * (1/2)) * F.tan 50
              * F.sqrt (50 + (i : ℚ)) := by
  refine ⟨⟨rfl, elec_accelerate_work F c s⟩,
    ⟨rfl, gas_accelerate_work F g s⟩, ?_⟩
  rw [elec_getWork_eq, elec_accelerate_work,
    elec_construct_work, elec_construct_speed]
  simp only [zero_add]
  have hv : constants.VECTOR_SIZE = 10000 := rfl
  have ha : constants.ACCELERATION_VALUE = 50 := rfl
  rw [hv, ha]
  refine Finset.sum_congr rfl ?_
  intro i _
  simp [impl.workTerm, impl.calcTerm]

/-- C2: for every virtual-dispatch vehicle, `accelerate(s)` adds
`s * getFriction()` to the internal speed (friction `0.85` for
`PolyElectricCar`, `0.95` for `PolyGasCar`) and runs the workload kernel on
the scaled speed; after one `accelerate(s)` from a fresh state,
`getCurrentSpeed()` equals `s * friction`, not `s`. -/
theorem C2_poly_accelerate_friction (F : MathFns) (st : PolyVehicleState) (s : ℚ) :
    ((PolyElectricCar.accelerate F st s).speed
        = st.speed + s * constants.ELECTRIC_FRICTION
      ∧ (PolyGasCar.accelerate F st s).speed
        = st.speed + s * constants.GAS_FRICTION)
    ∧ (PolyElectricCar.getFriction = 17/20 ∧ PolyGasCar.getFriction = 19/20)
    ∧ ((PolyElectricCar.accelerate F st s).work
          = st.work + ∑ i ∈ Finset.range constants.VECTOR_SIZE,
              impl.workTerm F (st.speed + s * constants.ELECTRIC_FRICTION) i
      ∧ (PolyGasCar.accelerate F st s).work
          = st.work + ∑ i ∈ Finset.range constants.VECTOR_SIZE,
              impl.workTerm F (st.speed + s * constants.GAS_FRICTION) i)
    ∧ (PolyVehicle.getCurrentSpeed (PolyElectricCar.accelerate F PolyVehicle.construct s)
          = s * constants.ELECTRIC_FRICTION
      ∧ PolyVehicle.getCurrentSpeed (PolyGasCar.accelerate F PolyVehicle.construct s)
          = s * constants.GAS_FRICTION)
    ∧ (s ≠ 0 →
        PolyVehicle.getCurrentSpeed (PolyElectricCar.accelerate F PolyVehicle.construct s) ≠ s
        ∧ PolyVehicle.getCurrentSpeed (PolyGasCar.accelerate F PolyVehicle.construct s) ≠ s) := by
  refine ⟨⟨rfl, rfl⟩, ⟨rfl, rfl⟩,
    ⟨poly_accelerate_work F constants.ELECTRIC_FRICTION st s,
     poly_accelerate_work F constants.GAS_FRICTION st s⟩, ⟨?_, ?_⟩, ?_⟩
  · simp [PolyVehicle.getCurrentSpeed, PolyElectricCar.accelerate,
      PolyElectricCar.getFriction, poly_accelerate_speed, PolyVehicle.construct]
  · simp [PolyVehicle.getCurrentSpeed, PolyGasCar.accelerate,
      PolyGasCar.getFriction, poly_accelerate_speed, PolyVehicle.construct]
  · intro hs
    have h17 : (17/20 : ℚ) ≠ 1 := by norm_num
    have h19 : (19/20 : ℚ) ≠ 1 := by norm_num
    constructor
    · simp only [PolyVehicle.getCurrentSpeed, PolyElectricCar.accelerate,
        poly_accelerate_speed, PolyVehicle.construct,
        PolyElectricCar.getFriction, constants.ELECTRIC_FRICTION, zero_add]
      intro heq
      exact h17 (mul_left_cancel₀ hs (heq.trans (mul_one s).symm))
    · simp only [PolyVehicle.getCurrentSpeed, PolyGasCar.accelerate,
        poly_accelerate_speed, PolyVehicle.construct,
        PolyGasCar.getFriction, constants.GAS_FRICTION, zero_add]
      intro heq
      exact h19 (mul_left_cancel₀ hs (heq.trans (mul_one s).symm))

/-- Witness for C2 at `F = unitFns`, `st` fresh, `s = 1`. -/
theorem C2_poly_accelerate_friction_witness :
    PolyVehicle.getCurrentSpeed
        (PolyElectricCar.accelerate unitFns PolyVehicle.construct 1) ≠ 1
    ∧ PolyVehicle.getCurrentSpeed
        (PolyGasCar.accelerate unitFns PolyVehicle.construct 1) ≠ 1 :=
  (C2_poly_accelerate_friction unitFns PolyVehicle.construct 1).2.2.2.2 (by norm_num)

/-- C3: `PolyElectricCar::brake()` increases `work` by exactly the current
speed times `ELECTRIC_FRICTION` (`0.85 = 17/20`) and sets speed to `0`;
`PolyGasCar::brake()` sets speed to `0` and leaves `work` unchanged; in both
cases `getCurrentSpeed()` immediately after `brake()` is exactly `0`. -/
theorem C3_poly_brake (st : PolyVehicleState) :
    (PolyElectricCar.brake st).work = st.work + st.speed * constants.ELECTRIC_FRICTION
    ∧ (PolyElectricCar.brake st).speed = 0
    ∧ (PolyGasCar.brake st).work = st.work
    ∧ (PolyGasCar.brake st).speed = 0
    ∧ PolyVehicle.getCurrentSpeed (PolyElectricCar.brake st) = 0
    ∧ PolyVehicle.getCurrentSpeed (PolyGasCar.brake st) = 0
    ∧ constants.ELECTRIC_FRICTION = 17/20 :=
  ⟨rfl, rfl, rfl, rfl, rfl, rfl, rfl⟩

/-- C4 counterexample: it is not true that `work` is non-decreasing across
every `accelerate` and `brake` call; with a math library for which the
kernel products are negative (`sin = -1`, the others `1`), a single
`accelerate(50.0)` on a fresh `ElectricSportsCar` drops `work` from `0` to
`-10000`. -/
theorem C4_counterexample :
    ¬ (∀ (F : MathFns),
        (∀ (c : ElectricSportsCar) (s : ℚ),
          ElectricSportsCar.getWork c
            ≤ ElectricSportsCar.getWork (ElectricSportsCar.accelerate F c s))
        ∧ (∀ (g : GasSportsCar) (s : ℚ),
          GasSportsCar.getWork g
            ≤ GasSportsCar.getWork (GasSportsCar.accelerate F g s))
        ∧ (∀ (st : PolyVehicleState) (s : ℚ),
          st.work ≤ (PolyElectricCar.accelerate F st s).work)
        ∧ (∀ (st : PolyVehicleState) (s : ℚ),
          st.work ≤ (PolyGasCar.accelerate F st s).work)
        ∧ (∀ st : PolyVehicleState, st.work ≤ (PolyElectricCar.brake st).work)
        ∧ (∀ st : PolyVehicleState, st.work ≤ (PolyGasCar.brake st).work)) := by
  intro h
  have hx := (h negSinFns).1 (ElectricSportsCar.construct "Tesla" "Model S") 50
  rw [elec_getWork_eq, elec_getWork_eq,
    elec_accelerate_work, elec_construct_work,
    elec_construct_speed] at hx
  have hterm : ∀ i : Nat, impl.workTerm negSinFns (0 + 50) i = -1 := by
    intro i
    simp [impl.workTerm, impl.calcTerm, negSinFns]
  rw [Finset.sum_congr rfl (fun i _ => hterm i), Finset.sum_const,
    Finset.card_range] at hx
  have hv : constants.VECTOR_SIZE = 10000 := rfl
  rw [hv] at hx
  norm_num at hx

/-- C4 (amended): within a run, `work` is non-decreasing across `accelerate`
and `brake` calls provided every kernel contribution
`sin(speed*i) * cos(i*0.5) * tan(speed) * sqrt(speed+i)` is non-negative,
and — for `PolyElectricCar::brake`, which adds `speed * ELECTRIC_FRICTION`
back — provided the current speed is non-negative; the generic-dispatch
`brake` and `PolyGasCar::brake` never change `work` at all.  (Without the
non-negativity side conditions the kernel may decrease `work`, since the
summed trigonometric products carry no sign guarantee.) -/
theorem C4_work_monotone (F : MathFns)
    (hterm : ∀ (sp : ℚ) (i : Nat), 0 ≤ impl.workTerm F sp i) :
    (∀ (c : ElectricSportsCar) (s : ℚ),
        ElectricSportsCar.getWork c
          ≤ ElectricSportsCar.getWork (ElectricSportsCar.accelerate F c s))
    ∧ (∀ (g : GasSportsCar) (s : ℚ),
        GasSportsCar.getWork g
          ≤ GasSportsCar.getWork (GasSportsCar.accelerate F g s))
    ∧ (∀ (st : PolyVehicleState) (s : ℚ),
        st.work ≤ (PolyElectricCar.accelerate F st s).work)
    ∧ (∀ (st : PolyVehicleState) (s : ℚ),
        st.work ≤ (PolyGasCar.accelerate F st s).work)
    ∧ (∀ st : PolyVehicleState, 0 ≤ st.speed → st.work ≤ (PolyElectricCar.brake st).work)
    ∧ (∀ st : PolyVehicleState, (PolyGasCar.brake st).work = st.work)
    ∧ (∀ c : ElectricSportsCar, (ElectricSportsCar.brake c).work = c.work)
    ∧ (∀ g : GasSportsCar, (GasSportsCar.brake g).work = g.work) := by
  have key : ∀ (w sp : ℚ),
      w ≤ w + ∑ i ∈ Finset.range constants.VECTOR_SIZE, impl.workTerm F sp i := by
    intro w sp
    have hnn : 0 ≤ ∑ i ∈ Finset.range constants.VECTOR_SIZE, impl.workTerm F sp i :=
      Finset.sum_nonneg (fun i _ => hterm sp i)
    linarith
  refine ⟨?_, ?_, ?_, ?_, ?_, fun st => rfl, fun c => rfl, fun g => rfl⟩
  · intro c s
    rw [elec_getWork_eq, elec_getWork_eq,
      elec_accelerate_work]
    exact key c.work (c.speed + s)
  · intro g s
    rw [gas_getWork_eq, gas_getWork_eq,
      gas_accelerate_work]
    exact key g.work (g.speed + s)
  · intro st s
    have hw : (PolyElectricCar.accelerate F st s).work
        = st.work + ∑ i ∈ Finset.range constants.VECTOR_SIZE,
            impl.workTerm F (st.speed + s * constants.ELECTRIC_FRICTION) i :=
      poly_accelerate_work F constants.ELECTRIC_FRICTION st s
    rw [hw]
    exact key st.work (st.speed + s * constants.ELECTRIC_FRICTION)
  · intro st s
    have hw : (PolyGasCar.accelerate F st s).work
        = st.work + ∑ i ∈ Finset.range constants.VECTOR_SIZE,
            impl.workTerm F (st.speed + s * constants.GAS_FRICTION) i :=
      poly_accelerate_work F constants.GAS_FRICTION st s
    rw [hw]
    exact key st.work (st.speed + s * constants.GAS_FRICTION)
  · intro st hsp
    have hb : (PolyElectricCar.brake st).work
        = st.work + st.speed * constants.ELECTRIC_FRICTION := rfl
    rw [hb]
    have hf : (0 : ℚ) ≤ constants.ELECTRIC_FRICTION := by
      norm_num [constants.ELECTRIC_FRICTION]
    have := mul_nonneg hsp hf
    linarith

/-- Witness for C4 (amended) at `F = unitFns` (all contributions `1 ≥ 0`). -/
theorem C4_work_monotone_witness :
    ElectricSportsCar.getWork (ElectricSportsCar.construct "Tesla" "Model S")
      ≤ ElectricSportsCar.getWork
          (ElectricSportsCar.accelerate unitFns
            (ElectricSportsCar.construct "Tesla" "Model S") 50) :=
  (C4_work_monotone unitFns
      (by intro sp i; norm_num [impl.workTerm, impl.calcTerm, unitFns])).1
    (ElectricSportsCar.construct "Tesla" "Model S") 50

/-- C5: the generic-dispatch computation is deterministic — the result of
`N` repeated `accelerate(s)` calls is a function of the numeric start state
alone (two runs from identical numeric state give equal `getWork()`); the
kernel has no randomness or run-dependent input. -/
theorem C5_deterministic (F : MathFns) (s : ℚ) (n : Nat)
    (c d : ElectricSportsCar) (g k : GasSportsCar)
    (hc1 : c.speed = d.speed) (hc2 : c.work = d.work)
    (hc3 : c.calculations = d.calculations)
    (hg1 : g.speed = k.speed) (hg2 : g.work = k.work)
    (hg3 : g.calculations = k.calculations) :
    ElectricSportsCar.getWork (ElectricSportsCar.accelerateN F s n c)
      = ElectricSportsCar.getWork (ElectricSportsCar.accelerateN F s n d)
    ∧ GasSportsCar.getWork (GasSportsCar.accelerateN F s n g)
      = GasSportsCar.getWork (GasSportsCar.accelerateN F s n k) := by
  constructor
  · rw [elec_getWork_eq, elec_getWork_eq]
    exact (elec_accelerateN_numeric F s n c d hc1 hc2 hc3).2.1
  · rw [gas_getWork_eq, gas_getWork_eq]
    exact (gas_accelerateN_numeric F s n g k hg1 hg2 hg3).2.1

/-- Witness for C5: two runs of three `accelerate(50)` calls from freshly
constructed vehicles (identical numeric state, different labels). -/
theorem C5_deterministic_witness :
    ElectricSportsCar.getWork (ElectricSportsCar.accelerateN unitFns 50 3
        (ElectricSportsCar.construct "Tesla" "Model S"))
      = ElectricSportsCar.getWork (ElectricSportsCar.accelerateN unitFns 50 3
        (ElectricSportsCar.construct "Rerun" "Copy"))
    ∧ GasSportsCar.getWork (GasSportsCar.accelerateN unitFns 50 3
        (GasSportsCar.construct "Porsche" "911"))
      = GasSportsCar.getWork (GasSportsCar.accelerateN unitFns 50 3
        (GasSportsCar.construct "Rerun" "Copy")) :=
  C5_deterministic unitFns 50 3 _ _ _ _ rfl rfl rfl rfl rfl rfl

theorem elec_construct_calculations (b m : String) :
    (ElectricSportsCar.construct b m).calculations
      = Array.mkArray constants.VECTOR_SIZE 0 := rfl

theorem gas_construct_calculations (b m : String) :
    (GasSportsCar.construct b m).calculations
      = Array.mkArray constants.VECTOR_SIZE 0 := rfl

theorem poly_construct_calculations :
    PolyVehicle.construct.calculations = Array.mkArray constants.VECTOR_SIZE 0 := rfl

theorem elec_accelerate_calculations (F : MathFns)
    (c : ElectricSportsCar) (s : ℚ) :
    (ElectricSportsCar.accelerate F c s).calculations
      = (impl.doAcceleration F (c.speed + s) c.work c.calculations).2 := by
  simp only [ElectricSportsCar.accelerate]

theorem gas_accelerate_calculations (F : MathFns)
    (c : GasSportsCar) (s : ℚ) :
    (GasSportsCar.accelerate F c s).calculations
      = (impl.doAcceleration F (c.speed + s) c.work c.calculations).2 := by
  simp only [GasSportsCar.accelerate]

theorem poly_accelerate_calculations (F : MathFns) (fr : ℚ)
    (st : PolyVehicleState) (s : ℚ) :
    (PolyVehicle.accelerate F fr st s).calculations
      = (impl.doAcceleration F (st.speed + s * fr) st.work st.calculations).2 := by
  simp only [PolyVehicle.accelerate]

/-- C6: each measured benchmark iteration performs exactly
`INNER_LOOP_COUNT` (10) repetitions of the sequence accelerate(50.0), add
`getWork()` to the running total, brake — once for the Electric and once
for the Gas variant per repetition — and each benchmark is registered with
minimum wall-time `0.1 s`, fixed iteration count `10000`, real-time (wall
clock) measurement and millisecond display unit. -/
theorem C6_benchmark_structure (F : MathFns) (st : ConceptBenchState)
    (pst : PolyBenchState) :
    conceptIteration F st = (conceptRep F)^[constants.INNER_LOOP_COUNT] st
    ∧ polyIteration F pst = (polyRep F)^[constants.INNER_LOOP_COUNT] pst
    ∧ constants.INNER_LOOP_COUNT = 10
    ∧ constants.ACCELERATION_VALUE = 50
    ∧ (conceptRep F st).tesla
        = (st.tesla.accelerate F constants.ACCELERATION_VALUE).brake
    ∧ (conceptRep F st).porsche
        = (st.porsche.accelerate F constants.ACCELERATION_VALUE).brake
    ∧ (conceptRep F st).total_work
        = st.total_work
          + ElectricSportsCar.getWork (st.tesla.accelerate F constants.ACCELERATION_VALUE)
          + GasSportsCar.getWork (st.porsche.accelerate F constants.ACCELERATION_VALUE)
    ∧ mainBenchmarks.map Prod.fst = ["ConceptBased", "Polymorphic"]
    ∧ mainBenchmarks.map (fun p => p.2.minTime) = [1/10, 1/10]
    ∧ mainBenchmarks.map (fun p => p.2.iterations) = [10000, 10000]
    ∧ mainBenchmarks.map (fun p => p.2.useRealTime) = [true, true]
    ∧ mainBenchmarks.map (fun p => p.2.timeUnit)
        = [TimeUnit.millisecond, TimeUnit.millisecond] :=
  ⟨foldl_const_apply (conceptRep F) constants.INNER_LOOP_COUNT st,
   foldl_const_apply (polyRep F) constants.INNER_LOOP_COUNT pst,
   rfl, rfl, rfl, rfl, rfl, rfl, rfl, rfl, rfl, rfl⟩

/-- C7: for every vehicle of either dispatch strategy the `calculations`
buffer has length `VECTOR_SIZE` (10000) fixed at construction and unchanged
by every operation, and the kernel writes exactly the indices
`0 .. 9999` in place, each write in bounds. -/
theorem C7_buffer_invariant (F : MathFns) (b m : String)
    (c : ElectricSportsCar) (g : GasSportsCar) (st : PolyVehicleState) (s : ℚ) :
    ((ElectricSportsCar.construct b m).calculations.size = constants.VECTOR_SIZE
      ∧ (GasSportsCar.construct b m).calculations.size = constants.VECTOR_SIZE
      ∧ PolyVehicle.construct.calculations.size = constants.VECTOR_SIZE
      ∧ (ElectricSportsCar.accelerate F c s).calculations.size = c.calculations.size
      ∧ (ElectricSportsCar.brake c).calculations.size = c.calculations.size
      ∧ (GasSportsCar.accelerate F g s).calculations.size = g.calculations.size
      ∧ (GasSportsCar.brake g).calculations.size = g.calculations.size
      ∧ (PolyElectricCar.accelerate F st s).calculations.size = st.calculations.size
      ∧ (PolyGasCar.accelerate F st s).calculations.size = st.calculations.size
      ∧ (PolyElectricCar.brake st).calculations.size = st.calculations.size
      ∧ (PolyGasCar.brake st).calculations.size = st.calculations.size)
    ∧ (c.calculations.size = constants.VECTOR_SIZE →
        ∀ j, j < constants.VECTOR_SIZE →
          ((ElectricSportsCar.accelerate F c s).calculations).getD j 0
            = impl.calcTerm F (c.speed + s) j) := by
  constructor
  · refine ⟨?_, ?_, ?_, ?_, rfl, ?_, rfl, ?_, ?_, rfl, rfl⟩
    · rw [elec_construct_calculations, Array.size_mkArray]
    · rw [gas_construct_calculations, Array.size_mkArray]
    · rw [poly_construct_calculations, Array.size_mkArray]
    · rw [elec_accelerate_calculations, impl.doAcceleration_size]
    · rw [gas_accelerate_calculations, impl.doAcceleration_size]
    · have hp : (PolyElectricCar.accelerate F st s).calculations
          = (impl.doAcceleration F (st.speed + s * PolyElectricCar.getFriction)
              st.work st.calculations).2 :=
        poly_accelerate_calculations F PolyElectricCar.getFriction st s
      rw [hp, impl.doAcceleration_size]
    · have hp : (PolyGasCar.accelerate F st s).calculations
          = (impl.doAcceleration F (st.speed + s * PolyGasCar.getFriction)
              st.work st.calculations).2 :=
        poly_accelerate_calculations F PolyGasCar.getFriction st s
      rw [hp, impl.doAcceleration_size]
  · intro hc j hj
    rw [elec_accelerate_calculations]
    exact impl.doAcceleration_getD F (c.speed + s) c.work c.calculations hc j hj

/-- Witness for C7 at a freshly constructed vehicle, index 0. -/
theorem C7_buffer_invariant_witness :
    ((ElectricSportsCar.accelerate unitFns
        (ElectricSportsCar.construct "Tesla" "Model S") 50).calculations).getD 0 0
      = impl.calcTerm unitFns
          ((ElectricSportsCar.construct "Tesla" "Model S").speed + 50) 0 :=
  (C7_buffer_invariant unitFns "x" "y" (ElectricSportsCar.construct "Tesla" "Model S")
      (GasSportsCar.construct "Porsche" "911") PolyVehicle.construct 50).2
    (by rw [elec_construct_calculations, Array.size_mkArray])
    0 (by norm_num [constants.VECTOR_SIZE])

/-- C8: the two generic-dispatch variants are extensionally equal — the same
sequence of accelerate/brake calls from freshly constructed state yields
equal speed, equal work, equal buffers and equal `getWork()` on
`ElectricSportsCar` and `GasSportsCar`, whatever their labels. -/
theorem C8_generic_variants_equivalent (F : MathFns) (ops : List CarOp)
    (b m bb mm : String) :
    (ElectricSportsCar.runOps F (ElectricSportsCar.construct b m) ops).speed
      = (GasSportsCar.runOps F (GasSportsCar.construct bb mm) ops).speed
    ∧ (ElectricSportsCar.runOps F (ElectricSportsCar.construct b m) ops).work
      = (GasSportsCar.runOps F (GasSportsCar.construct bb mm) ops).work
    ∧ (ElectricSportsCar.runOps F (ElectricSportsCar.construct b m) ops).calculations
      = (GasSportsCar.runOps F (GasSportsCar.construct bb mm) ops).calculations
    ∧ ElectricSportsCar.getWork
        (ElectricSportsCar.runOps F (ElectricSportsCar.construct b m) ops)
      = GasSportsCar.getWork
        (GasSportsCar.runOps F (GasSportsCar.construct bb mm) ops) := by
  have h := runOps_numeric_equiv F ops (ElectricSportsCar.construct b m)
    (GasSportsCar.construct bb mm) rfl rfl rfl
  refine ⟨h.1, h.2.1, h.2.2, ?_⟩
  rw [elec_getWork_eq, gas_getWork_eq]
  exact h.2.1

/-- C9: the capability-set check accepts both generic-dispatch variants and
rejects any method set missing one of `accelerate(double)->void`,
`brake()->void`, `getWork()->double`; the check is a decidable predicate
evaluated before dispatch (the compile-time gate), never a runtime
fallback. -/
theorem C9_concept_gate :
    (SportsCar ElectricSportsCarMethods = true
      ∧ SportsCar GasSportsCarMethods = true
      ∧ Acceleratable ElectricSportsCarMethods = true
      ∧ Acceleratable GasSportsCarMethods = true)
    ∧ (∀ t : MethodSet,
        (t.accelerateDoubleVoid = false ∨ t.brakeVoid = false
          ∨ t.getWorkDouble = false) →
          Acceleratable t = false ∧ SportsCar t = false) := by
  refine ⟨⟨rfl, rfl, rfl, rfl⟩, ?_⟩
  intro t ht
  have hA : Acceleratable t = false := by
    rcases ht with h | h | h <;> simp [Acceleratable, h]
  exact ⟨hA, by simp [SportsCar, hA]⟩

/-- Witness for C9: a method set lacking `accelerate(double)->void` fails
both concept checks. -/
theorem C9_concept_gate_witness :
    Acceleratable ⟨false, true, true, true, true⟩ = false
    ∧ SportsCar ⟨false, true, true, true, true⟩ = false :=
  C9_concept_gate.2 ⟨false, true, true, true, true⟩ (Or.inl rfl)

/-- C10: for both generic-dispatch variants, `brake()` modifies only the
`speed` field (setting it to 0); `work`, the buffer, `brand` and `model`
are unchanged, so `getWork()`, `getBrand()` and `getModel()` return the
same values immediately before and after any `brake()`. -/
theorem C10_generic_brake_frame (c : ElectricSportsCar) (g : GasSportsCar) :
    ((ElectricSportsCar.brake c).speed = 0
      ∧ (ElectricSportsCar.brake c).work = c.work
      ∧ (ElectricSportsCar.brake c).calculations = c.calculations
      ∧ (ElectricSportsCar.brake c).brand = c.brand
      ∧ (ElectricSportsCar.brake c).model = c.model
      ∧ ElectricSportsCar.getWork (ElectricSportsCar.brake c)
          = ElectricSportsCar.getWork c
      ∧ ElectricSportsCar.getBrand (ElectricSportsCar.brake c)
          = ElectricSportsCar.getBrand c
      ∧ ElectricSportsCar.getModel (ElectricSportsCar.brake c)
          = ElectricSportsCar.getModel c)
    ∧ ((GasSportsCar.brake g).speed = 0
      ∧ (GasSportsCar.brake g).work = g.work
      ∧ (GasSportsCar.brake g).calculations = g.calculations
      ∧ (GasSportsCar.brake g).brand = g.brand
      ∧ (GasSportsCar.brake g).model = g.model
      ∧ GasSportsCar.getWork (GasSportsCar.brake g) = GasSportsCar.getWork g
      ∧ GasSportsCar.getBrand (GasSportsCar.brake g) = GasSportsCar.getBrand g
      ∧ GasSportsCar.getModel (GasSportsCar.brake g) = GasSportsCar.getModel g) :=
  ⟨⟨rfl, rfl, rfl, rfl, rfl, rfl, rfl, rfl⟩,
   ⟨rfl, rfl, rfl, rfl, rfl, rfl, rfl, rfl⟩⟩
